import Mathlib

/-!
Shallow embedding of the analytics layer of the PropellerAds MCP server
(`src/propellerads_mcp/server.py` and `client.py`): statistics records are
ordered association lists of numeric fields (modelling the Python `dict`s
with exact rationals for the numeric values), and the derived-reporting
helpers (`calculate_metrics`, `find_underperforming_zones`, `find_top_zones`,
`find_scaling_opportunities`, `compare_periods`, `auto_blacklist_zones`) are
translated function by function.
-/

namespace PropellerAds

/-- A statistics/campaign/zone record: an ordered association list from field
name to numeric value, modelling the Python `dict[str, Any]` values that flow
through the analytics layer (numeric values as exact rationals). -/
structure Record where
  entries : List (String × ℚ)
deriving DecidableEq, Repr

/-- Python `{}`: the empty record. -/
def Record.empty : Record := ⟨[]⟩

/-- Lookup of the first entry with the given key, modelling `dict.get`. -/
def getEntries : List (String × ℚ) → String → Option ℚ
  | [], _ => none
  | p :: ps, k => if p.1 = k then some p.2 else getEntries ps k

/-- Replace the value at the first entry with the given key, appending a new
entry when the key is absent: the association-list form of Python
`{**d, k: v}` (insertion order preserved, later value wins). -/
def setEntries : List (String × ℚ) → String → ℚ → List (String × ℚ)
  | [], k, v => [(k, v)]
  | p :: ps, k, v => if p.1 = k then (k, v) :: ps else p :: setEntries ps k v

/-- `r.get k` models Python `r.get(k)`: `some` value when present. -/
def Record.get (r : Record) (k : String) : Option ℚ :=
  getEntries r.entries k

/-- `r.getD k d` models Python `r.get(k, d)`. -/
def Record.getD (r : Record) (k : String) (d : ℚ) : ℚ :=
  (r.get k).getD d

/-- `r.set k v` models Python `{**r, k: v}`. -/
def Record.set (r : Record) (k : String) (v : ℚ) : Record :=
  ⟨setEntries r.entries k v⟩

/-- Whether the record has an entry with the given key. -/
def Record.hasKey (r : Record) (k : String) : Bool :=
  r.entries.any (fun p => p.1 = k)

/-- Python `x or y` on numbers: `y` when `x` is zero (falsy), else `x`. -/
def pyOr (x y : ℚ) : ℚ := if x = 0 then y else x

/-- Round a rational to the nearest integer, halves to even, modelling the
rounding mode of Python `round` on the exact value. With `x = n / d` in
lowest terms and `d > 0`, the floor is `n.fdiv d` and the fractional part is
`(n.fmod d) / d`, so comparing it with `1 / 2` is comparing `2 * n.fmod d`
with `d`. -/
def roundHalfEven (x : ℚ) : ℤ :=
  let f : ℤ := Int.fdiv x.num x.den
  let r : ℤ := Int.fmod x.num x.den
  if 2 * r < (x.den : ℤ) then f
  else if (x.den : ℤ) < 2 * r then f + 1
  else if f % 2 = 0 then f else f + 1

/-- Python `round(x, n)`: round `x` to `n` decimal digits. -/
def pyRound (n : ℕ) (x : ℚ) : ℚ :=
  mkRat (roundHalfEven (x * 10 ^ n)) (10 ^ n)

/-- The `impressions` read in `calculate_metrics`:
`stats.get("impressions", 0) or 0`. -/
def statImpressions (stats : Record) : ℚ := pyOr (stats.getD "impressions" 0) 0

/-- The `clicks` read in `calculate_metrics`: `stats.get("clicks", 0) or 0`. -/
def statClicks (stats : Record) : ℚ := pyOr (stats.getD "clicks" 0) 0

/-- The `conversions` read in `calculate_metrics`:
`stats.get("conversions", 0) or 0`. -/
def statConversions (stats : Record) : ℚ := pyOr (stats.getD "conversions" 0) 0

/-- The `spend` read in `calculate_metrics`:
`stats.get("spend", 0) or stats.get("cost", 0) or 0` (fallback to `cost`
whenever the `spend` value is absent or zero-like). -/
def resolveSpend (stats : Record) : ℚ :=
  pyOr (stats.getD "spend" 0) (pyOr (stats.getD "cost" 0) 0)

/-- The `revenue` read in `calculate_metrics`: `stats.get("revenue", 0) or 0`. -/
def statRevenue (stats : Record) : ℚ := pyOr (stats.getD "revenue" 0) 0

/-- `ctr = (clicks / impressions * 100) if impressions > 0 else 0`. -/
def ctrOf (stats : Record) : ℚ :=
  if 0 < statImpressions stats then statClicks stats / statImpressions stats * 100 else 0

/-- `cvr = (conversions / clicks * 100) if clicks > 0 else 0`. -/
def cvrOf (stats : Record) : ℚ :=
  if 0 < statClicks stats then statConversions stats / statClicks stats * 100 else 0

/-- `cpc = spend / clicks if clicks > 0 else 0`. -/
def cpcOf (stats : Record) : ℚ :=
  if 0 < statClicks stats then resolveSpend stats / statClicks stats else 0

/-- `cpa = spend / conversions if conversions > 0 else 0`. -/
def cpaOf (stats : Record) : ℚ :=
  if 0 < statConversions stats then resolveSpend stats / statConversions stats else 0

/-- `roi = ((revenue - spend) / spend * 100) if spend > 0 else 0`. -/
def roiOf (stats : Record) : ℚ :=
  if 0 < resolveSpend stats then
    (statRevenue stats - resolveSpend stats) / resolveSpend stats * 100
  else 0

/-- Embeds `calculate_metrics` (server.py lines 47-68): returns the input
record extended with the five rounded derived metrics. -/
def calculate_metrics (stats : Record) : Record :=
  ((((stats.set "ctr" (pyRound 2 (ctrOf stats))).set
      "cvr" (pyRound 2 (cvrOf stats))).set
      "cpc" (pyRound 4 (cpcOf stats))).set
      "cpa" (pyRound 2 (cpaOf stats))).set
      "roi" (pyRound 2 (roiOf stats))

/-- Second operand `0` makes Python `or` the identity on numbers. -/
@[simp] theorem pyOr_zero (x : ℚ) : pyOr x 0 = x := by
  unfold pyOr; split <;> simp_all

/-- Lookup after `set`: the set key reads the new value, others unchanged. -/
@[simp] theorem Record.get_set (r : Record) (k : String) (v : ℚ) (k' : String) :
    (r.set k v).get k' = if k' = k then some v else r.get k' := by
  obtain ⟨l⟩ := r
  show getEntries (setEntries l k v) k' = if k' = k then some v else getEntries l k'
  induction l with
  | nil =>
    by_cases h : k' = k
    · simp [getEntries, setEntries, h]
    · have h2 : ¬k = k' := fun hh => h hh.symm
      simp [getEntries, setEntries, h, h2]
  | cons p ps ih =>
    by_cases hp : p.1 = k
    · by_cases h : k' = k
      · subst h
        simp [getEntries, setEntries, hp]
      · have h2 : ¬k = k' := fun hh => h hh.symm
        have h3 : ¬p.1 = k' := fun hh => h ((hp.symm.trans hh).symm)
        simp [getEntries, setEntries, hp, h, h2, h3]
    · by_cases h : k' = k
      · subst h
        simp [getEntries, setEntries, hp, ih]
      · by_cases hpk : p.1 = k' <;>
          simp [getEntries, setEntries, hp, h, hpk, ih]

attribute [local semireducible] Rat.mul Rat.add Rat.sub Rat.inv

/-- Python truthiness of an optional numeric value (`if z.get("zone_id")`):
present and nonzero. -/
def truthyNum : Option ℚ → Bool
  | none => false
  | some v => decide (v ≠ 0)

/-- Models the comprehension
`[z.get("zone_id") for z in l if z.get("zone_id")]`. -/
def truthyZoneIds (l : List Record) : List ℚ :=
  l.filterMap (fun z => if truthyNum (z.get "zone_id") then z.get "zone_id" else none)

/-- Python stable `list.sort(key=key, reverse=True)`: stable merge sort under
the "greater or tied" comparison, so ties keep their input order. -/
def sortByDesc (key : Record → ℚ) (l : List Record) : List Record :=
  l.mergeSort (fun a b => key b ≤ key a)

/-- The descending-by-key comparison is transitive. -/
theorem descLE_trans (key : Record → ℚ) (a b c : Record)
    (hab : decide (key b ≤ key a) = true) (hbc : decide (key c ≤ key b) = true) :
    decide (key c ≤ key a) = true := by
  simp only [decide_eq_true_eq] at *
  exact le_trans hbc hab

/-- The descending-by-key comparison is total. -/
theorem descLE_total (key : Record → ℚ) (a b : Record) :
    (decide (key b ≤ key a) || decide (key a ≤ key b)) = true := by
  simp only [Bool.or_eq_true, decide_eq_true_eq]
  exact le_total (key b) (key a)

/-- Sorting is a permutation of the input. -/
theorem sortByDesc_perm (key : Record → ℚ) (l : List Record) :
    List.Perm (sortByDesc key l) l :=
  List.mergeSort_perm l _

/-- Sorting yields a list in weakly decreasing key order. -/
theorem sortByDesc_pairwise (key : Record → ℚ) (l : List Record) :
    (sortByDesc key l).Pairwise (fun a b => key b ≤ key a) := by
  have h := @List.sorted_mergeSort Record (fun a b => decide (key b ≤ key a))
    (descLE_trans key) (descLE_total key) l
  exact h.imp of_decide_eq_true

/-- Stability: any correctly-ordered (in particular, tied) pair of the input
stays in input order in the output. -/
theorem sortByDesc_pair_sublist (key : Record → ℚ) {l : List Record}
    {a b : Record} (hk : key b ≤ key a) (h : [a, b].Sublist l) :
    [a, b].Sublist (sortByDesc key l) :=
  List.pair_sublist_mergeSort (descLE_trans key) (descLE_total key)
    (by simpa using hk) h

/-- The zone spend read in `find_underperforming_zones` and
`auto_blacklist_zones`: `z.get("spend", z.get("cost", 0)) or 0` (fallback to
`cost` only when the `spend` key is absent). -/
def zoneSpend (z : Record) : ℚ :=
  pyOr ((z.get "spend").getD ((z.get "cost").getD 0)) 0

/-- The selection test of `find_underperforming_zones` and
`auto_blacklist_zones`: `spend >= min_spend and conv <= max_conv`. -/
def underperformingPred (min_spend max_conv : ℚ) (z : Record) : Bool :=
  decide (min_spend ≤ zoneSpend z ∧ pyOr (z.getD "conversions" 0) 0 ≤ max_conv)

/-- Output of the `find_underperforming_zones` tool branch. -/
structure UnderperformingResult where
  zones : List Record
  count : ℕ
  total_waste : ℚ
  zone_ids : List ℚ
deriving DecidableEq

/-- Embeds the `find_underperforming_zones` branch of `handle_tool`
(server.py lines 702-746): filter by spend/conversion thresholds, sort by
zone spend descending, report count, total wasted spend and the truthy zone
ids in sorted order. -/
def find_underperforming_zones (zones : List Record) (min_spend max_conv : ℚ) :
    UnderperformingResult :=
  let underperforming := zones.filter (underperformingPred min_spend max_conv)
  let sorted := sortByDesc zoneSpend underperforming
  { zones := sorted
    count := sorted.length
    total_waste := (sorted.map zoneSpend).sum
    zone_ids := truthyZoneIds sorted }

/-- The selection test of `find_top_zones` over an enriched record:
`(z.get("conversions", 0) or 0) >= min_conv and (z.get("roi", 0) or 0) >= min_roi`. -/
def topZonePred (min_conv min_roi : ℚ) (z : Record) : Bool :=
  decide (min_conv ≤ pyOr (z.getD "conversions" 0) 0 ∧
    min_roi ≤ pyOr (z.getD "roi" 0) 0)

/-- Output of the `find_top_zones` tool branch. -/
structure TopZonesResult where
  zones : List Record
  zone_ids : List ℚ
deriving DecidableEq

/-- Embeds the `find_top_zones` branch of `handle_tool` (server.py lines
748-785): enrich every zone record, filter by conversion and roi thresholds,
sort by roi descending, truncate to the limit, and list the truthy zone ids
of the truncated ranking. -/
def find_top_zones (zones : List Record) (min_conv min_roi : ℚ) (limit : ℕ) :
    TopZonesResult :=
  let enriched := zones.map calculate_metrics
  let top_zones := enriched.filter (topZonePred min_conv min_roi)
  let sorted := sortByDesc (fun x => x.getD "roi" 0) top_zones
  { zones := sorted.take limit
    zone_ids := truthyZoneIds (sorted.take limit) }

/-- Value-override map of Python `{**a, **b}`: the entries of `a` in order,
each value replaced by `b`'s value when `b` also has the key. -/
def mergeEntries (a : List (String × ℚ)) (b : Record) : List (String × ℚ) :=
  a.map (fun p => match b.get p.1 with | some v => (p.1, v) | none => p)

/-- Python `{**a, **b}`: `a`'s entries with `b` overriding values, followed
by `b`'s entries at new keys, in order. -/
def Record.merge (a b : Record) : Record :=
  ⟨mergeEntries a.entries b ++ b.entries.filter (fun p => !(a.hasKey p.1))⟩

/-- Lookup distributes over append, first list first. -/
theorem getEntries_append (l1 l2 : List (String × ℚ)) (k : String) :
    getEntries (l1 ++ l2) k =
      match getEntries l1 k with
      | some v => some v
      | none => getEntries l2 k := by
  induction l1 with
  | nil => simp [getEntries]
  | cons p ps ih =>
    by_cases hp : p.1 = k <;> simp [getEntries, hp, ih]

/-- Lookup in the override-mapped entries. -/
theorem getEntries_mergeEntries (a : List (String × ℚ)) (b : Record) (k : String) :
    getEntries (mergeEntries a b) k =
      match getEntries a k with
      | some w => match b.get k with | some v => some v | none => some w
      | none => none := by
  induction a with
  | nil => simp [getEntries, mergeEntries]
  | cons p ps ih =>
    simp only [mergeEntries] at ih
    by_cases hp : p.1 = k
    · subst hp
      cases hb : b.get p.1 <;> simp [getEntries, mergeEntries, hb]
    · cases hb : b.get p.1 <;> simp [getEntries, mergeEntries, hb, hp, ih]

/-- Filtering with a test that keeps every entry at key `k` does not change
the lookup at `k`, provided dropped entries have other keys. -/
theorem getEntries_filter (l : List (String × ℚ)) (q : String × ℚ → Bool)
    (k : String) (hq : ∀ p : String × ℚ, p.1 = k → q p = true) :
    getEntries (l.filter q) k = getEntries l k := by
  induction l with
  | nil => simp
  | cons p ps ih =>
    by_cases hp : p.1 = k
    · simp [List.filter_cons, hq p hp, getEntries, hp]
    · by_cases hqp : q p <;> simp [List.filter_cons, hqp, getEntries, hp, ih]

/-- A record misses a key exactly when `hasKey` is false. -/
theorem Record.get_eq_none_iff (r : Record) (k : String) :
    r.get k = none ↔ r.hasKey k = false := by
  obtain ⟨l⟩ := r
  show getEntries l k = none ↔ (l.any (fun p => p.1 = k)) = false
  induction l with
  | nil => simp [getEntries]
  | cons p ps ih => by_cases hp : p.1 = k <;> simp [getEntries, hp, ih]

/-- Lookup in a merged record: `b`'s value wins, else `a`'s. -/
theorem Record.get_merge (a b : Record) (k : String) :
    (a.merge b).get k =
      match b.get k with
      | some v => some v
      | none => a.get k := by
  show getEntries (mergeEntries a.entries b ++ _) k = _
  rw [getEntries_append, getEntries_mergeEntries]
  cases ha : getEntries a.entries k with
  | some w =>
    cases hb : b.get k <;> simp [hb, Record.get, ha]
  | none =>
    have hno : a.get k = none := ha
    have hkey : a.hasKey k = false := (Record.get_eq_none_iff a k).mp hno
    rw [getEntries_filter]
    · show b.get k = _
      cases hb : b.get k <;> simp [hb, hno]
    · intro p hp
      simp [hp, hkey]

/-- Direction tag of a period-comparison change (the arrow in the rendered
table). -/
inductive Direction where
  | up
  | down
  | flat
deriving DecidableEq

/-- A reported metric change: `N/A` when the first-period value is zero,
otherwise the percentage with its direction tag. -/
inductive MetricChange where
  | na
  | pct (value : ℚ) (dir : Direction)
deriving DecidableEq

/-- Embeds the local helper `change` of the compare tool (server.py lines
621-626). -/
def change (v1 v2 : ℚ) : MetricChange :=
  if v1 = 0 then .na
  else
    let p := (v2 - v1) / v1 * 100
    .pct p (if 0 < p then .up else if p < 0 then .down else .flat)

/-- Output of the `compare_periods` tool branch: the two enriched snapshots
and the six metric changes of the rendered table. -/
structure PeriodComparison where
  m1 : Record
  m2 : Record
  dImpressions : MetricChange
  dClicks : MetricChange
  dCtr : MetricChange
  dConversions : MetricChange
  dSpend : MetricChange
  dRoi : MetricChange
deriving DecidableEq

/-- Embeds the `compare_periods` branch of `handle_tool` (server.py lines
606-640): take the first record of each fetched period (`{}` when the fetch
returned no records), enrich both, and compute the six changes from the
enriched `get(name, 0)` values. -/
def compare_periods (stats1 stats2 : List Record) : PeriodComparison :=
  let m1 := calculate_metrics (stats1.headD Record.empty)
  let m2 := calculate_metrics (stats2.headD Record.empty)
  { m1 := m1
    m2 := m2
    dImpressions := change (m1.getD "impressions" 0) (m2.getD "impressions" 0)
    dClicks := change (m1.getD "clicks" 0) (m2.getD "clicks" 0)
    dCtr := change (m1.getD "ctr" 0) (m2.getD "ctr" 0)
    dConversions := change (m1.getD "conversions" 0) (m2.getD "conversions" 0)
    dSpend := change (m1.getD "spend" 0) (m2.getD "spend" 0)
    dRoi := change (m1.getD "roi" 0) (m2.getD "roi" 0) }

/-- Embeds `PropellerAdsClient.get_campaign_statistics` (client.py lines
256-268) applied to an already-fetched statistics list:
`stats[0] if stats else {}`. -/
def get_campaign_statistics (stats : List Record) : Record :=
  stats.headD Record.empty

/-- The retention test of `find_scaling_opportunities` over enriched
metrics: `conv >= min_conv and roi >= min_roi` where
`conv = metrics.get("conversions", 0) or 0` and
`roi = metrics.get("roi", 0) or 0`. -/
def scalingPred (min_roi min_conv : ℚ) (m : Record) : Bool :=
  decide (min_conv ≤ pyOr (m.getD "conversions" 0) 0 ∧
    min_roi ≤ pyOr (m.getD "roi" 0) 0)

/-- Embeds the per-campaign loop of `find_scaling_opportunities` (server.py
lines 795-807), with the per-campaign statistics fetch as a fallible
collaborator: a raised `PropellerAdsError` is an `Except.error`, which
propagates out of the loop as in the source (there is no try/except around
the fetch). -/
def scalingCollect (fetch : Record → Except String (List Record))
    (min_roi min_conv : ℚ) : List Record → Except String (List Record)
  | [] => .ok []
  | c :: rest =>
    match fetch c with
    | .error e => .error e
    | .ok statsList =>
      match scalingCollect fetch min_roi min_conv rest with
      | .error e => .error e
      | .ok tail =>
        let stats := get_campaign_statistics statsList
        if stats.entries.isEmpty then .ok tail
        else
          let metrics := calculate_metrics stats
          if scalingPred min_roi min_conv metrics then .ok (c.merge metrics :: tail)
          else .ok tail

/-- Embeds the `find_scaling_opportunities` branch of `handle_tool`
(server.py lines 787-826): collect the qualifying campaigns, each merged
with its enriched metrics, then sort by roi descending. -/
def find_scaling_opportunities (fetch : Record → Except String (List Record))
    (min_roi min_conv : ℚ) (campaigns : List Record) :
    Except String (List Record) :=
  match scalingCollect fetch min_roi min_conv campaigns with
  | .error e => .error e
  | .ok l => .ok (sortByDesc (fun x => x.getD "roi" 0) l)

/-- Outcome of the `auto_blacklist_zones` tool branch: no selection, a
dry-run report, or an issued blacklist mutation carrying its zone ids. -/
inductive AutoBlacklistOutcome where
  | noZones
  | dryRunReport (count : ℕ) (total : ℚ) (ids : List ℚ)
  | blacklisted (count : ℕ) (total : ℚ) (ids : List ℚ)
deriving DecidableEq

/-- Embeds the `auto_blacklist_zones` branch of `handle_tool` (server.py
lines 837-876); `dry_run` is the optional boolean argument (`args.get`
yields `none` when omitted, defaulting to `True`), and the blacklist
mutation `add_zones_to_blacklist` is issued exactly in the `blacklisted`
outcome, with the listed zone ids. -/
def auto_blacklist_zones (zones : List Record) (min_spend max_conv : ℚ)
    (dry_run : Option Bool) : AutoBlacklistOutcome :=
  let underperforming := zones.filter (underperformingPred min_spend max_conv)
  if underperforming.isEmpty then .noZones
  else
    let ids := truthyZoneIds underperforming
    let total := (underperforming.map zoneSpend).sum
    if dry_run.getD true then .dryRunReport ids.length total ids
    else .blacklisted ids.length total ids

/-- The five derived keys added by `calculate_metrics`. -/
def derivedKeys : List String := ["ctr", "cvr", "cpc", "cpa", "roi"]

/-- The enriched record carries the rounded ctr at key `"ctr"`. -/
@[simp] theorem calculate_metrics_get_ctr (r : Record) :
    (calculate_metrics r).get "ctr" = some (pyRound 2 (ctrOf r)) := by
  simp [calculate_metrics]

/-- The enriched record carries the rounded cvr at key `"cvr"`. -/
@[simp] theorem calculate_metrics_get_cvr (r : Record) :
    (calculate_metrics r).get "cvr" = some (pyRound 2 (cvrOf r)) := by
  simp [calculate_metrics]

/-- The enriched record carries the rounded cpc at key `"cpc"`. -/
@[simp] theorem calculate_metrics_get_cpc (r : Record) :
    (calculate_metrics r).get "cpc" = some (pyRound 4 (cpcOf r)) := by
  simp [calculate_metrics]

/-- The enriched record carries the rounded cpa at key `"cpa"`. -/
@[simp] theorem calculate_metrics_get_cpa (r : Record) :
    (calculate_metrics r).get "cpa" = some (pyRound 2 (cpaOf r)) := by
  simp [calculate_metrics]

/-- The enriched record carries the rounded roi at key `"roi"`. -/
@[simp] theorem calculate_metrics_get_roi (r : Record) :
    (calculate_metrics r).get "roi" = some (pyRound 2 (roiOf r)) := by
  simp [calculate_metrics]

/-- Enrichment leaves every non-derived key unchanged. -/
theorem calculate_metrics_base (r : Record) (k : String) (h : k ∉ derivedKeys) :
    (calculate_metrics r).get k = r.get k := by
  simp only [derivedKeys, List.mem_cons, List.not_mem_nil, or_false, not_or] at h
  obtain ⟨h1, h2, h3, h4, h5⟩ := h
  simp [calculate_metrics, h1, h2, h3, h4, h5]

/-- The impressions read is invariant under enrichment. -/
theorem statImpressions_cm (r : Record) :
    statImpressions (calculate_metrics r) = statImpressions r := by
  unfold statImpressions Record.getD
  rw [calculate_metrics_base r "impressions" (by decide)]

/-- The clicks read is invariant under enrichment. -/
theorem statClicks_cm (r : Record) :
    statClicks (calculate_metrics r) = statClicks r := by
  unfold statClicks Record.getD
  rw [calculate_metrics_base r "clicks" (by decide)]

/-- The conversions read is invariant under enrichment. -/
theorem statConversions_cm (r : Record) :
    statConversions (calculate_metrics r) = statConversions r := by
  unfold statConversions Record.getD
  rw [calculate_metrics_base r "conversions" (by decide)]

/-- The revenue read is invariant under enrichment. -/
theorem statRevenue_cm (r : Record) :
    statRevenue (calculate_metrics r) = statRevenue r := by
  unfold statRevenue Record.getD
  rw [calculate_metrics_base r "revenue" (by decide)]

/-- The resolved spend is invariant under enrichment. -/
theorem resolveSpend_cm (r : Record) :
    resolveSpend (calculate_metrics r) = resolveSpend r := by
  unfold resolveSpend Record.getD
  rw [calculate_metrics_base r "spend" (by decide),
    calculate_metrics_base r "cost" (by decide)]

/-- The raw ctr is invariant under enrichment. -/
theorem ctrOf_cm (r : Record) : ctrOf (calculate_metrics r) = ctrOf r := by
  unfold ctrOf
  rw [statImpressions_cm, statClicks_cm]

/-- The raw cvr is invariant under enrichment. -/
theorem cvrOf_cm (r : Record) : cvrOf (calculate_metrics r) = cvrOf r := by
  unfold cvrOf
  rw [statClicks_cm, statConversions_cm]

/-- The raw cpc is invariant under enrichment. -/
theorem cpcOf_cm (r : Record) : cpcOf (calculate_metrics r) = cpcOf r := by
  unfold cpcOf
  rw [statClicks_cm, resolveSpend_cm]

/-- The raw cpa is invariant under enrichment. -/
theorem cpaOf_cm (r : Record) : cpaOf (calculate_metrics r) = cpaOf r := by
  unfold cpaOf
  rw [statConversions_cm, resolveSpend_cm]

/-- The raw roi is invariant under enrichment. -/
theorem roiOf_cm (r : Record) : roiOf (calculate_metrics r) = roiOf r := by
  unfold roiOf
  rw [statRevenue_cm, resolveSpend_cm]

/-- The resolved spend of nonnegative spend/cost fields is nonnegative. -/
theorem resolveSpend_nonneg (r : Record) (hs : 0 ≤ r.getD "spend" 0)
    (hc : 0 ≤ r.getD "cost" 0) : 0 ≤ resolveSpend r := by
  unfold resolveSpend
  rw [pyOr_zero]
  unfold pyOr
  split <;> assumption

/-- A `0 < x` guard over a nonnegative value is the `x = 0` default guard. -/
theorem guard_pos_eq (x y : ℚ) (hx : 0 ≤ x) :
    (if 0 < x then y else 0) = (if x = 0 then 0 else y) := by
  rcases hx.lt_or_eq with h | h
  · simp [h, h.ne']
  · simp [← h]

/-- C1: metric enrichment maps every record to a record carrying the five
derived numeric fields ctr, cvr, cpc, cpa, roi, always present; and on
records with nonnegative base fields they are exactly
`clicks/impressions*100` (0 when impressions = 0),
`conversions/clicks*100` and `spend/clicks` (0 when clicks = 0),
`spend/conversions` (0 when conversions = 0), and
`(revenue - spend)/spend*100` (0 when spend = 0), with ctr, cvr, cpa, roi
rounded to 2 decimal places and cpc to 4 (absent fields defaulting to 0,
spend resolved with the cost fallback). -/
theorem claim_C1_metric_enrichment (r : Record) :
    (((calculate_metrics r).get "ctr").isSome ∧
      ((calculate_metrics r).get "cvr").isSome ∧
      ((calculate_metrics r).get "cpc").isSome ∧
      ((calculate_metrics r).get "cpa").isSome ∧
      ((calculate_metrics r).get "roi").isSome) ∧
    (0 ≤ r.getD "impressions" 0 → 0 ≤ r.getD "clicks" 0 →
     0 ≤ r.getD "conversions" 0 → 0 ≤ r.getD "spend" 0 → 0 ≤ r.getD "cost" 0 →
      (calculate_metrics r).get "ctr" = some (pyRound 2
        (if r.getD "impressions" 0 = 0 then 0
         else r.getD "clicks" 0 / r.getD "impressions" 0 * 100)) ∧
      (calculate_metrics r).get "cvr" = some (pyRound 2
        (if r.getD "clicks" 0 = 0 then 0
         else r.getD "conversions" 0 / r.getD "clicks" 0 * 100)) ∧
      (calculate_metrics r).get "cpc" = some (pyRound 4
        (if r.getD "clicks" 0 = 0 then 0
         else resolveSpend r / r.getD "clicks" 0)) ∧
      (calculate_metrics r).get "cpa" = some (pyRound 2
        (if r.getD "conversions" 0 = 0 then 0
         else resolveSpend r / r.getD "conversions" 0)) ∧
      (calculate_metrics r).get "roi" = some (pyRound 2
        (if resolveSpend r = 0 then 0
         else (r.getD "revenue" 0 - resolveSpend r) / resolveSpend r * 100))) := by
  constructor
  · refine ⟨?_, ?_, ?_, ?_, ?_⟩ <;> simp
  · intro h1 h2 h3 h4 h5
    have hsp : 0 ≤ resolveSpend r := resolveSpend_nonneg r h4 h5
    refine ⟨?_, ?_, ?_, ?_, ?_⟩
    · rw [calculate_metrics_get_ctr]
      simp only [ctrOf, statImpressions, statClicks, pyOr_zero]
      rw [guard_pos_eq _ _ h1]
    · rw [calculate_metrics_get_cvr]
      simp only [cvrOf, statClicks, statConversions, pyOr_zero]
      rw [guard_pos_eq _ _ h2]
    · rw [calculate_metrics_get_cpc]
      simp only [cpcOf, statClicks, pyOr_zero]
      rw [guard_pos_eq _ _ h2]
    · rw [calculate_metrics_get_cpa]
      simp only [cpaOf, statConversions, pyOr_zero]
      rw [guard_pos_eq _ _ h3]
    · rw [calculate_metrics_get_roi]
      simp only [roiOf, statRevenue, pyOr_zero]
      rw [guard_pos_eq _ _ hsp]

/-- Witness for C1 at a concrete record with `spend` absent and `cost = 20`:
roi enriches to `(30 - 20) / 20 * 100 = 50`. -/
theorem claim_C1_metric_enrichment_witness :
    (calculate_metrics ⟨[("impressions", 1000), ("clicks", 50), ("conversions", 5),
      ("cost", 20), ("revenue", 30)]⟩).get "roi" = some 50 := by
  have h := (claim_C1_metric_enrichment ⟨[("impressions", 1000), ("clicks", 50),
    ("conversions", 5), ("cost", 20), ("revenue", 30)]⟩).2
    (by decide) (by decide) (by decide) (by decide) (by decide)
  rw [h.2.2.2.2]
  decide

/-- C8: enrichment is pure: it preserves every non-derived field of its
input unchanged, recomputes identical derived fields when fed its own
output (the base fields being unchanged), and is deterministic on equal
inputs. -/
theorem claim_C8_enrichment_pure (r : Record) :
    (∀ k, k ∉ derivedKeys → (calculate_metrics r).get k = r.get k) ∧
    (∀ k ∈ derivedKeys,
      (calculate_metrics (calculate_metrics r)).get k = (calculate_metrics r).get k) ∧
    (∀ r' : Record, r' = r → calculate_metrics r' = calculate_metrics r) := by
  refine ⟨fun k hk => calculate_metrics_base r k hk, fun k hk => ?_,
    fun r' h => h ▸ rfl⟩
  simp only [derivedKeys, List.mem_cons, List.not_mem_nil, or_false] at hk
  rcases hk with rfl | rfl | rfl | rfl | rfl
  · rw [calculate_metrics_get_ctr, calculate_metrics_get_ctr, ctrOf_cm]
  · rw [calculate_metrics_get_cvr, calculate_metrics_get_cvr, cvrOf_cm]
  · rw [calculate_metrics_get_cpc, calculate_metrics_get_cpc, cpcOf_cm]
  · rw [calculate_metrics_get_cpa, calculate_metrics_get_cpa, cpaOf_cm]
  · rw [calculate_metrics_get_roi, calculate_metrics_get_roi, roiOf_cm]

/-- Witness for C8 at a concrete record: the original `clicks` field is
preserved and re-enrichment reproduces the roi field. -/
theorem claim_C8_enrichment_pure_witness :
    (calculate_metrics ⟨[("clicks", 3)]⟩).get "clicks" = some 3 ∧
    (calculate_metrics (calculate_metrics ⟨[("clicks", 3)]⟩)).get "roi" =
      (calculate_metrics ⟨[("clicks", 3)]⟩).get "roi" := by
  have h := claim_C8_enrichment_pure ⟨[("clicks", 3)]⟩
  refine ⟨?_, h.2.1 "roi" (by decide)⟩
  rw [h.1 "clicks" (by decide)]
  decide

/-- Projection of the `find_underperforming_zones` result: selected zones in
sorted order. -/
@[simp] theorem find_underperforming_zones_zones (zones : List Record)
    (ms mc : ℚ) :
    (find_underperforming_zones zones ms mc).zones =
      sortByDesc zoneSpend (zones.filter (underperformingPred ms mc)) := rfl

/-- Projection of the `find_underperforming_zones` result: the count. -/
@[simp] theorem find_underperforming_zones_count (zones : List Record)
    (ms mc : ℚ) :
    (find_underperforming_zones zones ms mc).count =
      (sortByDesc zoneSpend (zones.filter (underperformingPred ms mc))).length := rfl

/-- Projection of the `find_underperforming_zones` result: total waste. -/
@[simp] theorem find_underperforming_zones_total (zones : List Record)
    (ms mc : ℚ) :
    (find_underperforming_zones zones ms mc).total_waste =
      ((sortByDesc zoneSpend (zones.filter (underperformingPred ms mc))).map
        zoneSpend).sum := rfl

/-- Projection of the `find_underperforming_zones` result: zone ids. -/
@[simp] theorem find_underperforming_zones_ids (zones : List Record)
    (ms mc : ℚ) :
    (find_underperforming_zones zones ms mc).zone_ids =
      truthyZoneIds (sortByDesc zoneSpend (zones.filter (underperformingPred ms mc))) := rfl

/-- When every record has a truthy zone id, the comprehension is a plain
projection in the same order. -/
theorem truthyZoneIds_of_truthy (l : List Record)
    (h : ∀ z ∈ l, truthyNum (z.get "zone_id") = true) :
    truthyZoneIds l = l.map (fun z => (z.get "zone_id").getD 0) := by
  induction l with
  | nil => rfl
  | cons z zs ih =>
    have hz := h z (List.mem_cons_self z zs)
    cases hg : z.get "zone_id" with
    | none => rw [hg] at hz; simp [truthyNum] at hz
    | some v =>
      rw [hg] at hz
      have ihz := ih (fun w hw => h w (List.mem_cons_of_mem z hw))
      simp only [truthyZoneIds] at ihz
      simp [truthyZoneIds, hg, hz, ihz]

/-- C2 counterexample: the record `{zone_id: 1, spend: 0, cost: 50,
conversions: 0}` resolves spend to 50 inside enrichment but to 0 at the
filter/sort sites of `find_underperforming_zones`, so with `min_spend = 10`
it is not selected, while the spend-absent record `{zone_id: 1, cost: 50,
conversions: 0}` is: the two read sites do not resolve spend identically. -/
theorem claim_C2_counterexample :
    resolveSpend ⟨[("zone_id", 1), ("spend", 0), ("cost", 50), ("conversions", 0)]⟩ = 50 ∧
    zoneSpend ⟨[("zone_id", 1), ("spend", 0), ("cost", 50), ("conversions", 0)]⟩ = 0 ∧
    (find_underperforming_zones
      [⟨[("zone_id", 1), ("spend", 0), ("cost", 50), ("conversions", 0)]⟩] 10 0).zones = [] ∧
    (find_underperforming_zones
      [⟨[("zone_id", 1), ("cost", 50), ("conversions", 0)]⟩] 10 0).zones =
      [⟨[("zone_id", 1), ("cost", 50), ("conversions", 0)]⟩] := by
  have h1 : List.filter (underperformingPred 10 0)
      [⟨[("zone_id", 1), ("spend", 0), ("cost", 50), ("conversions", 0)]⟩] = [] := by decide
  have h2 : List.filter (underperformingPred 10 0)
      [⟨[("zone_id", 1), ("cost", 50), ("conversions", 0)]⟩] =
      [⟨[("zone_id", 1), ("cost", 50), ("conversions", 0)]⟩] := by decide
  refine ⟨by decide, by decide, ?_, ?_⟩
  · rw [find_underperforming_zones_zones, h1]
    simp [sortByDesc]
  · rw [find_underperforming_zones_zones, h2]
    simp [sortByDesc]

/-- C2 amended: the enrichment-site resolution (`spend or cost or 0`) and
the filter/sort-site resolution (`get("spend", get("cost", 0)) or 0`) agree
whenever the `spend` key is absent (both fall back to cost) or holds a
nonzero value (both take it); they differ exactly on a present zero spend
with nonzero cost, where enrichment resolves to cost but filtering/sorting
to 0. A record with spend absent and cost 50 therefore behaves everywhere
as spend 50, and enriches identically to a spend-50 record. -/
theorem claim_C2_amended (z : Record) :
    (z.get "spend" = none → resolveSpend z = zoneSpend z) ∧
    (∀ s, z.get "spend" = some s → s ≠ 0 →
      resolveSpend z = s ∧ zoneSpend z = s) ∧
    (z.get "spend" = some 0 →
      resolveSpend z = z.getD "cost" 0 ∧ zoneSpend z = 0) ∧
    (∀ k ∈ derivedKeys, (calculate_metrics ⟨[("cost", 50)]⟩).get k =
      (calculate_metrics ⟨[("spend", 50)]⟩).get k) ∧
    resolveSpend ⟨[("cost", 50)]⟩ = 50 ∧ zoneSpend ⟨[("cost", 50)]⟩ = 50 := by
  refine ⟨?_, ?_, ?_, by decide, by decide, by decide⟩
  · intro h
    unfold resolveSpend zoneSpend Record.getD
    rw [h, pyOr_zero, pyOr_zero]
    simp [pyOr]
  · intro s h hs
    unfold resolveSpend zoneSpend Record.getD
    rw [h, pyOr_zero]
    simp [pyOr, hs]
  · intro h
    unfold resolveSpend zoneSpend Record.getD
    rw [h, pyOr_zero]
    simp [pyOr]

/-- Witness for the amended C2: the spend-absent record resolves equally at
both sites, and a nonzero spend value is taken verbatim at both sites. -/
theorem claim_C2_amended_witness :
    resolveSpend ⟨[("cost", 50), ("conversions", 0)]⟩ =
      zoneSpend ⟨[("cost", 50), ("conversions", 0)]⟩ ∧
    resolveSpend ⟨[("spend", 7), ("cost", 50)]⟩ = 7 ∧
    zoneSpend ⟨[("spend", 7), ("cost", 50)]⟩ = 7 := by
  have h1 := claim_C2_amended ⟨[("cost", 50), ("conversions", 0)]⟩
  have h2 := claim_C2_amended ⟨[("spend", 7), ("cost", 50)]⟩
  exact ⟨h1.1 (by decide), h2.2.1 7 (by decide) (by decide)⟩

/-- First zone of the spec's underperforming-selection example. -/
def exZone1 : Record := ⟨[("zone_id", 1), ("spend", 15), ("conversions", 0)]⟩

/-- Second zone of the spec's underperforming-selection example. -/
def exZone2 : Record := ⟨[("zone_id", 2), ("spend", 5), ("conversions", 0)]⟩

/-- Third zone of the spec's underperforming-selection example. -/
def exZone3 : Record := ⟨[("zone_id", 3), ("spend", 20), ("conversions", 2)]⟩

/-- Two tied zones used to exhibit sort stability. -/
def tieZoneA : Record := ⟨[("zone_id", 4), ("spend", 12), ("conversions", 0)]⟩

/-- Second of the two tied zones, listed after `tieZoneA`. -/
def tieZoneB : Record := ⟨[("zone_id", 5), ("spend", 12), ("conversions", 0)]⟩

/-- C3: underperforming-zone selection returns exactly the records passing
`resolved spend >= min_spend and conversions <= max_conversions`, sorted by
resolved spend descending and stably so, with their count, the sum of their
resolved spend as total wasted spend, and the zone identifiers in the same
order (when every selected record has a truthy zone id); on the spec's
three-zone example with thresholds 10 and 0 the selection is exactly zone 1
with total wasted spend 15. -/
theorem claim_C3_underperforming (zones : List Record) (min_spend max_conv : ℚ) :
    (∀ z : Record, underperformingPred min_spend max_conv z = true ↔
      (min_spend ≤ zoneSpend z ∧ pyOr (z.getD "conversions" 0) 0 ≤ max_conv)) ∧
    List.Perm (find_underperforming_zones zones min_spend max_conv).zones
      (zones.filter (underperformingPred min_spend max_conv)) ∧
    ((find_underperforming_zones zones min_spend max_conv).zones).Pairwise
      (fun a b => zoneSpend b ≤ zoneSpend a) ∧
    (∀ a b : Record,
      [a, b].Sublist (zones.filter (underperformingPred min_spend max_conv)) →
      zoneSpend a = zoneSpend b →
      [a, b].Sublist (find_underperforming_zones zones min_spend max_conv).zones) ∧
    (find_underperforming_zones zones min_spend max_conv).count =
      (zones.filter (underperformingPred min_spend max_conv)).length ∧
    (find_underperforming_zones zones min_spend max_conv).total_waste =
      ((zones.filter (underperformingPred min_spend max_conv)).map zoneSpend).sum ∧
    ((∀ z ∈ (find_underperforming_zones zones min_spend max_conv).zones,
        truthyNum (z.get "zone_id") = true) →
      (find_underperforming_zones zones min_spend max_conv).zone_ids =
        ((find_underperforming_zones zones min_spend max_conv).zones).map
          (fun z => (z.get "zone_id").getD 0)) ∧
    (find_underperforming_zones [exZone1, exZone2, exZone3] 10 0).zones = [exZone1] ∧
    (find_underperforming_zones [exZone1, exZone2, exZone3] 10 0).count = 1 ∧
    (find_underperforming_zones [exZone1, exZone2, exZone3] 10 0).total_waste = 15 ∧
    (find_underperforming_zones [exZone1, exZone2, exZone3] 10 0).zone_ids = [1] := by
  have hf : List.filter (underperformingPred 10 0) [exZone1, exZone2, exZone3] =
      [exZone1] := by decide
  refine ⟨fun z => by simp [underperformingPred], ?_, ?_, ?_, ?_, ?_, ?_, ?_, ?_, ?_, ?_⟩
  · rw [find_underperforming_zones_zones]
    exact sortByDesc_perm _ _
  · rw [find_underperforming_zones_zones]
    exact sortByDesc_pairwise _ _
  · intro a b hs hk
    rw [find_underperforming_zones_zones]
    exact sortByDesc_pair_sublist zoneSpend (le_of_eq hk.symm) hs
  · rw [find_underperforming_zones_count]
    simp [sortByDesc]
  · rw [find_underperforming_zones_total]
    exact ((sortByDesc_perm zoneSpend _).map zoneSpend).sum_eq
  · intro htruthy
    rw [find_underperforming_zones_ids]
    exact truthyZoneIds_of_truthy _ htruthy
  · rw [find_underperforming_zones_zones, hf]
    simp [sortByDesc]
  · rw [find_underperforming_zones_count, hf]
    simp [sortByDesc]
  · rw [find_underperforming_zones_total, hf]
    simp [sortByDesc]
    decide
  · rw [find_underperforming_zones_ids, hf]
    simp [sortByDesc]
    decide

/-- Witness for C3: on two tied zones both selected, stability keeps input
order and the zone-id list is the ordered projection of the selection. -/
theorem claim_C3_underperforming_witness :
    [tieZoneA, tieZoneB].Sublist
      (find_underperforming_zones [tieZoneA, tieZoneB] 10 0).zones ∧
    (find_underperforming_zones [tieZoneA, tieZoneB] 10 0).zone_ids =
      ((find_underperforming_zones [tieZoneA, tieZoneB] 10 0).zones).map
        (fun z => (z.get "zone_id").getD 0) := by
  have h := claim_C3_underperforming [tieZoneA, tieZoneB] 10 0
  have hf : List.filter (underperformingPred 10 0) [tieZoneA, tieZoneB] =
      [tieZoneA, tieZoneB] := by decide
  constructor
  · refine h.2.2.2.1 tieZoneA tieZoneB ?_ (by decide)
    rw [hf]
  · refine h.2.2.2.2.2.2.1 ?_
    intro z hz
    have hm := (h.2.1).mem_iff.mp hz
    rw [hf] at hm
    simp only [List.mem_cons, List.not_mem_nil, or_false] at hm
    rcases hm with rfl | rfl <;> decide

/-- Projection of the `find_top_zones` result: the truncated ranking. -/
@[simp] theorem find_top_zones_zones (zones : List Record) (mc mr : ℚ)
    (limit : ℕ) :
    (find_top_zones zones mc mr limit).zones =
      (sortByDesc (fun x => x.getD "roi" 0)
        ((zones.map calculate_metrics).filter (topZonePred mc mr))).take limit := rfl

/-- Projection of the `find_top_zones` result: the whitelist zone ids. -/
@[simp] theorem find_top_zones_ids (zones : List Record) (mc mr : ℚ)
    (limit : ℕ) :
    (find_top_zones zones mc mr limit).zone_ids =
      truthyZoneIds ((sortByDesc (fun x => x.getD "roi" 0)
        ((zones.map calculate_metrics).filter (topZonePred mc mr))).take limit) := rfl

/-- First zone of the spec's top-zone example. -/
def exTop1 : Record :=
  ⟨[("zone_id", 1), ("conversions", 5), ("revenue", 100), ("spend", 50)]⟩

/-- Second zone of the spec's top-zone example. -/
def exTop2 : Record :=
  ⟨[("zone_id", 2), ("conversions", 0), ("revenue", 0), ("spend", 10)]⟩

/-- C4: top-zone selection enriches every record, keeps exactly those with
`conversions >= min_conversions and roi >= min_roi`, ranks them by roi
descending, truncates to the limit, and returns the ranked records together
with their zone ids in rank order (when the ids are truthy); on the spec's
two-zone example with `min_conversions = 1` only zone 1 is returned, with
roi enriched to 100. -/
theorem claim_C4_top_zones (zones : List Record) (mc mr : ℚ) (limit : ℕ) :
    (∀ z : Record, topZonePred mc mr z = true ↔
      (mc ≤ pyOr (z.getD "conversions" 0) 0 ∧ mr ≤ pyOr (z.getD "roi" 0) 0)) ∧
    List.Perm (sortByDesc (fun x => x.getD "roi" 0)
        ((zones.map calculate_metrics).filter (topZonePred mc mr)))
      ((zones.map calculate_metrics).filter (topZonePred mc mr)) ∧
    (find_top_zones zones mc mr limit).zones =
      (sortByDesc (fun x => x.getD "roi" 0)
        ((zones.map calculate_metrics).filter (topZonePred mc mr))).take limit ∧
    ((find_top_zones zones mc mr limit).zones).Pairwise
      (fun a b => b.getD "roi" 0 ≤ a.getD "roi" 0) ∧
    ((find_top_zones zones mc mr limit).zones).length ≤ limit ∧
    ((∀ z ∈ (find_top_zones zones mc mr limit).zones,
        truthyNum (z.get "zone_id") = true) →
      (find_top_zones zones mc mr limit).zone_ids =
        ((find_top_zones zones mc mr limit).zones).map
          (fun z => (z.get "zone_id").getD 0)) ∧
    (find_top_zones [exTop1, exTop2] 1 0 20).zones = [calculate_metrics exTop1] ∧
    (calculate_metrics exTop1).get "roi" = some 100 ∧
    (find_top_zones [exTop1, exTop2] 1 0 20).zone_ids = [1] := by
  have hf : List.filter (topZonePred 1 0)
      (List.map calculate_metrics [exTop1, exTop2]) = [calculate_metrics exTop1] := by
    decide
  refine ⟨fun z => by simp [topZonePred], sortByDesc_perm _ _, rfl, ?_, ?_, ?_, ?_,
    by decide, ?_⟩
  · rw [find_top_zones_zones]
    exact (sortByDesc_pairwise _ _).sublist (List.take_sublist _ _)
  · rw [find_top_zones_zones]
    exact le_trans (List.length_take_le _ _) (le_refl _)
  · intro htruthy
    rw [find_top_zones_ids]
    exact truthyZoneIds_of_truthy _ htruthy
  · rw [find_top_zones_zones, hf]
    simp [sortByDesc]
  · rw [find_top_zones_ids, hf]
    simp [sortByDesc]
    decide

/-- Witness for C4: at the spec's example input, the zone-id list is the
ordered projection of the ranked selection. -/
theorem claim_C4_top_zones_witness :
    (find_top_zones [exTop1, exTop2] 1 0 20).zone_ids =
      ((find_top_zones [exTop1, exTop2] 1 0 20).zones).map
        (fun z => (z.get "zone_id").getD 0) := by
  have h := claim_C4_top_zones [exTop1, exTop2] 1 0 20
  refine h.2.2.2.2.2.1 ?_
  intro z hz
  rw [h.2.2.2.2.2.2.1] at hz
  simp only [List.mem_cons, List.not_mem_nil, or_false] at hz
  subst hz
  decide

/-- What a reported metric change must satisfy relative to the two period
values: not-applicable exactly when the first value is zero, otherwise the
relative percentage tagged by its sign. -/
def changeSpec (v1 v2 : ℚ) (c : MetricChange) : Prop :=
  (c = .na ↔ v1 = 0) ∧
  (v1 ≠ 0 → ∃ d, c = .pct ((v2 - v1) / v1 * 100) d ∧
    (d = .up ↔ 0 < (v2 - v1) / v1 * 100) ∧
    (d = .down ↔ (v2 - v1) / v1 * 100 < 0) ∧
    (d = .flat ↔ (v2 - v1) / v1 * 100 = 0))

/-- The embedded `change` helper satisfies its specification. -/
theorem change_changeSpec (v1 v2 : ℚ) : changeSpec v1 v2 (change v1 v2) := by
  unfold changeSpec change
  by_cases h : v1 = 0
  · simp [h]
  · rw [if_neg h]
    constructor
    · simp [h]
    · intro h2
      refine ⟨_, rfl, ?_⟩
      by_cases hp : 0 < (v2 - v1) / v1 * 100
      · simp [hp, lt_asymm hp, hp.ne']
      · by_cases hq : (v2 - v1) / v1 * 100 < 0
        · simp [hp, hq, hq.ne]
        · have hz : (v2 - v1) / v1 * 100 = 0 :=
            le_antisymm (not_lt.mp hp) (not_lt.mp hq)
          simp [hp, hq, hz]

/-- C7: period comparison enriches the first record of each period (the
empty fetch behaving as the all-zero empty record), and each of the six
tracked changes is not-applicable exactly when the first-period value is 0,
otherwise the relative percentage `(v2 - v1)/v1*100` tagged up/down/flat by
its sign; in particular impressions 0 versus 100 reports not-applicable. -/
theorem claim_C7_compare_periods (stats1 stats2 : List Record) :
    (compare_periods stats1 stats2).m1 =
      calculate_metrics (stats1.headD Record.empty) ∧
    (compare_periods stats1 stats2).m2 =
      calculate_metrics (stats2.headD Record.empty) ∧
    changeSpec ((compare_periods stats1 stats2).m1.getD "impressions" 0)
      ((compare_periods stats1 stats2).m2.getD "impressions" 0)
      (compare_periods stats1 stats2).dImpressions ∧
    changeSpec ((compare_periods stats1 stats2).m1.getD "clicks" 0)
      ((compare_periods stats1 stats2).m2.getD "clicks" 0)
      (compare_periods stats1 stats2).dClicks ∧
    changeSpec ((compare_periods stats1 stats2).m1.getD "ctr" 0)
      ((compare_periods stats1 stats2).m2.getD "ctr" 0)
      (compare_periods stats1 stats2).dCtr ∧
    changeSpec ((compare_periods stats1 stats2).m1.getD "conversions" 0)
      ((compare_periods stats1 stats2).m2.getD "conversions" 0)
      (compare_periods stats1 stats2).dConversions ∧
    changeSpec ((compare_periods stats1 stats2).m1.getD "spend" 0)
      ((compare_periods stats1 stats2).m2.getD "spend" 0)
      (compare_periods stats1 stats2).dSpend ∧
    changeSpec ((compare_periods stats1 stats2).m1.getD "roi" 0)
      ((compare_periods stats1 stats2).m2.getD "roi" 0)
      (compare_periods stats1 stats2).dRoi ∧
    (compare_periods [] stats2).m1 = calculate_metrics Record.empty ∧
    (∀ name : String, Record.empty.getD name 0 = 0) ∧
    (compare_periods [⟨[("impressions", 0)]⟩]
      [⟨[("impressions", 100)]⟩]).dImpressions = .na := by
  exact ⟨rfl, rfl, change_changeSpec _ _, change_changeSpec _ _,
    change_changeSpec _ _, change_changeSpec _ _, change_changeSpec _ _,
    change_changeSpec _ _, rfl, fun _ => rfl, by decide⟩

/-- Witness for C7: concrete periods with clicks 50 then 100 report a `+100%`
upward clicks change. -/
theorem claim_C7_compare_periods_witness :
    (compare_periods [⟨[("clicks", 50)]⟩] [⟨[("clicks", 100)]⟩]).dClicks =
      .pct 100 .up := by
  have h := (claim_C7_compare_periods [⟨[("clicks", 50)]⟩]
    [⟨[("clicks", 100)]⟩]).2.2.2.1
  obtain ⟨d, hd, hup, _, _⟩ := h.2 (by decide)
  rw [hd, hup.mpr (by decide)]
  decide

/-- C9 (implicit): when a campaign's or a period's statistics fetch returns
several records, only the first is used as the aggregate (the empty list
becoming the empty record); the remaining records are ignored, not summed. -/
theorem claim_C9_first_record_aggregate :
    (∀ (r : Record) (rest : List Record), get_campaign_statistics (r :: rest) = r) ∧
    get_campaign_statistics [] = Record.empty ∧
    (∀ (r : Record) (rest stats2 : List Record),
      compare_periods (r :: rest) stats2 = compare_periods [r] stats2) ∧
    (∀ (stats1 : List Record) (r : Record) (rest : List Record),
      compare_periods stats1 (r :: rest) = compare_periods stats1 [r]) ∧
    get_campaign_statistics [⟨[("clicks", 3)]⟩, ⟨[("clicks", 4)]⟩] =
      ⟨[("clicks", 3)]⟩ ∧
    (get_campaign_statistics [⟨[("clicks", 3)]⟩, ⟨[("clicks", 4)]⟩]).getD
      "clicks" 0 = 3 :=
  ⟨fun _ _ => rfl, rfl, fun _ _ _ => rfl, fun _ _ _ => rfl, by decide, by decide⟩

/-- The `auto_blacklist_zones` outcome is a mutation exactly when `dry_run`
is explicitly false and the selection is non-empty, and then carries the
truthy zone ids, total spend and count of the selection. -/
theorem auto_blacklist_blacklisted_iff (zones : List Record) (ms mc : ℚ)
    (d : Option Bool) (n : ℕ) (t : ℚ) (ids : List ℚ) :
    auto_blacklist_zones zones ms mc d = .blacklisted n t ids ↔
      (d = some false ∧ ¬(zones.filter (underperformingPred ms mc)).isEmpty ∧
        n = (truthyZoneIds (zones.filter (underperformingPred ms mc))).length ∧
        t = ((zones.filter (underperformingPred ms mc)).map zoneSpend).sum ∧
        ids = truthyZoneIds (zones.filter (underperformingPred ms mc))) := by
  unfold auto_blacklist_zones
  rcases d with _ | b
  · by_cases hu : (zones.filter (underperformingPred ms mc)).isEmpty <;>
      simp [hu]
  · cases b <;>
      by_cases hu : (zones.filter (underperformingPred ms mc)).isEmpty <;>
      simp [hu, eq_comm]

/-- C10 (implicit): auto-blacklisting is dry-run by default: with `dry_run`
omitted or true no blacklist mutation is ever issued; the mutation is issued
only when `dry_run` is explicitly false and the underperforming selection is
non-empty, and then with exactly the truthy zone ids of the selection. -/
theorem claim_C10_auto_blacklist (zones : List Record) (ms mc : ℚ)
    (d : Option Bool) :
    ((d = none ∨ d = some true) →
      ∀ (n : ℕ) (t : ℚ) (ids : List ℚ),
        auto_blacklist_zones zones ms mc d ≠ .blacklisted n t ids) ∧
    (∀ (n : ℕ) (t : ℚ) (ids : List ℚ),
      auto_blacklist_zones zones ms mc d = .blacklisted n t ids →
        d = some false ∧
        zones.filter (underperformingPred ms mc) ≠ [] ∧
        ids = truthyZoneIds (zones.filter (underperformingPred ms mc)) ∧
        t = ((zones.filter (underperformingPred ms mc)).map zoneSpend).sum ∧
        n = (truthyZoneIds (zones.filter (underperformingPred ms mc))).length) := by
  constructor
  · intro hd n t ids heq
    rw [auto_blacklist_blacklisted_iff] at heq
    rcases hd with rfl | rfl
    · exact Option.noConfusion heq.1
    · exact Bool.noConfusion (Option.some.inj heq.1)
  · intro n t ids heq
    rw [auto_blacklist_blacklisted_iff] at heq
    obtain ⟨hd, hne, hn, ht, hids⟩ := heq
    refine ⟨hd, ?_, hids, ht, hn⟩
    intro hnil
    exact hne (by simp [hnil])

/-- Witness for C10: one underperforming zone; with `dry_run` omitted the
mutation outcome is impossible, and the explicit `dry_run: false` run is a
mutation whose data match the selection. -/
theorem claim_C10_auto_blacklist_witness :
    auto_blacklist_zones [tieZoneA] 10 0 none ≠
      AutoBlacklistOutcome.blacklisted 1 12 [4] ∧
    (some false : Option Bool) = some false ∧
    [tieZoneA].filter (underperformingPred 10 0) ≠ [] := by
  have h := claim_C10_auto_blacklist [tieZoneA] 10 0 none
  have h2 := claim_C10_auto_blacklist [tieZoneA] 10 0 (some false)
  have heq : auto_blacklist_zones [tieZoneA] 10 0 (some false) =
      .blacklisted 1 12 [4] := by decide
  obtain ⟨hd, hne, _⟩ := h2.2 1 12 [4] heq
  exact ⟨h.1 (Or.inl rfl) 1 12 [4], hd, hne⟩

/-- Declarative per-campaign outcome of the scaling loop: `some` combined
record when the fetch succeeds, statistics are non-empty and the enriched
metrics meet both thresholds; `none` otherwise. -/
def scalingQualify (fetch : Record → Except String (List Record))
    (min_roi min_conv : ℚ) (c : Record) : Option Record :=
  match fetch c with
  | .error _ => none
  | .ok statsList =>
    let stats := get_campaign_statistics statsList
    if stats.entries.isEmpty then none
    else
      let metrics := calculate_metrics stats
      if scalingPred min_roi min_conv metrics then some (c.merge metrics)
      else none

/-- When every fetch succeeds, the scaling loop collects exactly the
qualifying campaigns, in input order. -/
theorem scalingCollect_ok (fetch : Record → Except String (List Record))
    (mr mc : ℚ) (campaigns : List Record)
    (h : ∀ c ∈ campaigns, ∃ l, fetch c = .ok l) :
    scalingCollect fetch mr mc campaigns =
      .ok (campaigns.filterMap (scalingQualify fetch mr mc)) := by
  induction campaigns with
  | nil => rfl
  | cons c rest ih =>
    obtain ⟨l, hl⟩ := h c (List.mem_cons_self c rest)
    have ihh := ih (fun x hx => h x (List.mem_cons_of_mem c hx))
    simp only [scalingCollect, hl, ihh, List.filterMap_cons, scalingQualify]
    by_cases he : (get_campaign_statistics l).entries.isEmpty
    · simp [he]
    · by_cases hp : scalingPred mr mc (calculate_metrics (get_campaign_statistics l)) <;>
        simp [he, hp]

/-- A failing fetch aborts the scaling loop with its error, regardless of
the campaigns after it. -/
theorem scalingCollect_error (fetch : Record → Except String (List Record))
    (mr mc : ℚ) (pre : List Record) (c : Record) (post : List Record)
    (e : String) (hpre : ∀ p ∈ pre, ∃ l, fetch p = .ok l)
    (hc : fetch c = .error e) :
    scalingCollect fetch mr mc (pre ++ c :: post) = .error e := by
  induction pre with
  | nil => simp [scalingCollect, hc]
  | cons p ps ih =>
    obtain ⟨l, hl⟩ := hpre p (List.mem_cons_self p ps)
    have ihh := ih (fun x hx => hpre x (List.mem_cons_of_mem p hx))
    simp [scalingCollect, hl, ihh]

/-- The fetch collaborator used in the scaling examples: campaign id 1 hits
an upstream error, every other campaign has one qualifying statistics
record. -/
def fetchWitness : Record → Except String (List Record) := fun c =>
  if c.getD "id" 0 = 1 then .error "API error 500"
  else .ok [⟨[("conversions", 20), ("spend", 10), ("revenue", 100)]⟩]

/-- C6 counterexample: with two active campaigns and the first campaign's
statistics fetch raising an upstream error, the whole batch aborts with that
error; the second campaign, which on its own qualifies and is returned, is
never processed. Failure is not isolated per campaign. -/
theorem claim_C6_counterexample :
    find_scaling_opportunities fetchWitness 50 10
      [⟨[("id", 1)]⟩, ⟨[("id", 2)]⟩] = .error "API error 500" ∧
    find_scaling_opportunities fetchWitness 50 10 [⟨[("id", 2)]⟩] =
      .ok [Record.merge ⟨[("id", 2)]⟩ (calculate_metrics
        ⟨[("conversions", 20), ("spend", 10), ("revenue", 100)]⟩)] := by
  constructor
  · rfl
  · have hcol : scalingCollect fetchWitness 50 10 [⟨[("id", 2)]⟩] =
        .ok [Record.merge ⟨[("id", 2)]⟩ (calculate_metrics
          ⟨[("conversions", 20), ("spend", 10), ("revenue", 100)]⟩)] := by rfl
    unfold find_scaling_opportunities
    rw [hcol]
    simp [sortByDesc]

/-- C6 amended: failure is not isolated per campaign: if the statistics
fetch succeeds for every campaign before `c` and raises an upstream error
for `c`, the whole scaling batch returns that error and no later campaign
is processed. (Only campaigns whose fetch succeeds with empty statistics
are silently skipped.) -/
theorem claim_C6_amended (fetch : Record → Except String (List Record))
    (mr mc : ℚ) (pre post : List Record) (c : Record) (e : String)
    (hpre : ∀ p ∈ pre, ∃ l, fetch p = .ok l) (hc : fetch c = .error e) :
    find_scaling_opportunities fetch mr mc (pre ++ c :: post) = .error e := by
  unfold find_scaling_opportunities
  rw [scalingCollect_error fetch mr mc pre c post e hpre hc]

/-- Witness for the amended C6 at the concrete two-campaign batch. -/
theorem claim_C6_amended_witness :
    find_scaling_opportunities fetchWitness 50 10
      ([] ++ ⟨[("id", 1)]⟩ :: [⟨[("id", 2)]⟩]) = .error "API error 500" :=
  claim_C6_amended fetchWitness 50 10 [] [⟨[("id", 2)]⟩] ⟨[("id", 1)]⟩
    "API error 500" (fun p hp => absurd hp (List.not_mem_nil p)) rfl

/-- C5: scaling-opportunity discovery, when every per-campaign fetch
succeeds, returns exactly the campaigns whose statistics are non-empty and
whose enriched conversions and roi meet the thresholds, each merged with its
enriched metrics (metrics winning key conflicts), sorted descending by roi;
a campaign with no statistics is silently excluded, never an error. -/
theorem claim_C5_scaling (fetch : Record → Except String (List Record))
    (mr mc : ℚ) (campaigns : List Record)
    (h : ∀ c ∈ campaigns, ∃ l, fetch c = .ok l) :
    find_scaling_opportunities fetch mr mc campaigns =
      .ok (sortByDesc (fun x => x.getD "roi" 0)
        (campaigns.filterMap (scalingQualify fetch mr mc))) ∧
    List.Perm (sortByDesc (fun x => x.getD "roi" 0)
        (campaigns.filterMap (scalingQualify fetch mr mc)))
      (campaigns.filterMap (scalingQualify fetch mr mc)) ∧
    (sortByDesc (fun x => x.getD "roi" 0)
        (campaigns.filterMap (scalingQualify fetch mr mc))).Pairwise
      (fun a b => b.getD "roi" 0 ≤ a.getD "roi" 0) ∧
    (∀ (c : Record) (l : List Record), fetch c = .ok l →
      (get_campaign_statistics l).entries.isEmpty →
      scalingQualify fetch mr mc c = none) ∧
    (∀ (c r : Record), scalingQualify fetch mr mc c = some r →
      ∃ l, fetch c = .ok l ∧
        ¬(get_campaign_statistics l).entries.isEmpty ∧
        scalingPred mr mc (calculate_metrics (get_campaign_statistics l)) = true ∧
        r = c.merge (calculate_metrics (get_campaign_statistics l)) ∧
        (∀ k, r.get k =
          match (calculate_metrics (get_campaign_statistics l)).get k with
          | some v => some v
          | none => c.get k)) := by
  refine ⟨?_, sortByDesc_perm _ _, sortByDesc_pairwise _ _, ?_, ?_⟩
  · unfold find_scaling_opportunities
    rw [scalingCollect_ok fetch mr mc campaigns h]
  · intro c l hl he
    unfold scalingQualify
    rw [hl]
    simp [he]
  · intro c r hq
    unfold scalingQualify at hq
    cases hf : fetch c with
    | error e => rw [hf] at hq; exact Option.noConfusion hq
    | ok l =>
      rw [hf] at hq
      dsimp only at hq
      by_cases he : (get_campaign_statistics l).entries.isEmpty
      · rw [if_pos he] at hq; exact Option.noConfusion hq
      · rw [if_neg he] at hq
        by_cases hp : scalingPred mr mc (calculate_metrics (get_campaign_statistics l)) = true
        · rw [if_pos hp] at hq
          refine ⟨l, rfl, he, hp, (Option.some.inj hq).symm, ?_⟩
          intro k
          rw [← Option.some.inj hq]
          exact Record.get_merge c (calculate_metrics (get_campaign_statistics l)) k
        · rw [if_neg hp] at hq; exact Option.noConfusion hq

/-- Witness for C5: a single campaign whose fetch succeeds with qualifying
statistics yields the sorted singleton of its merged record. -/
theorem claim_C5_scaling_witness :
    find_scaling_opportunities
      (fun _ => .ok [⟨[("conversions", 20), ("spend", 10), ("revenue", 100)]⟩])
      50 10 [⟨[("id", 2)]⟩] =
      .ok (sortByDesc (fun x => x.getD "roi" 0)
        ([⟨[("id", 2)]⟩].filterMap (scalingQualify
          (fun _ => .ok [⟨[("conversions", 20), ("spend", 10), ("revenue", 100)]⟩])
          50 10))) :=
  (claim_C5_scaling _ 50 10 _ (fun _ _ => ⟨_, rfl⟩)).1

end PropellerAds
